import Mathlib

/-!
Shallow embedding of hack/visualize-benchmarks.py (OpenFero/openfero).

The script loads a benchmark-comparison report (labels, entries, summary),
renders four charts (grouped ns/op bars, sorted percent-change bars,
allocation panels, category rollup) and prints a summary.  Numeric JSON
values are modelled as rationals; the chart data each renderer computes is
modelled as explicit records, and the observable run behaviour (prints,
directory creation, image writes, exit code) as an event trace.
-/

namespace VisualizeBenchmarks

/-- One benchmark entry of the parsed report (fields as read by the script). -/
structure Entry where
  name : String
  category : String
  old_ns_per_op : ℚ
  new_ns_per_op : ℚ
  ns_per_op_change_pct : ℚ
  old_bytes_per_op : ℚ
  new_bytes_per_op : ℚ
  old_allocs_per_op : ℚ
  new_allocs_per_op : ℚ
deriving DecidableEq

/-- The summary block of the report. -/
structure Summary where
  new_wins : Nat
  old_wins : Nat
  ties : Nat
  avg_ns_per_op_change_pct : ℚ
deriving DecidableEq

/-- The parsed top-level report document. -/
structure Report where
  old_label : String
  new_label : String
  entries : List Entry
  summary : Summary
deriving DecidableEq

/-- The characters of the token "Benchmark" that line 68 removes from names. -/
def benchChars : List Char := ['B', 'e', 'n', 'c', 'h', 'm', 'a', 'r', 'k']

/-- Python str.replace with empty replacement: remove every leftmost
non-overlapping occurrence of "Benchmark" from a character list.  The first
argument is fuel making the recursion structural; it only needs to be at
least the length of the list. -/
def removeBenchAux : Nat → List Char → List Char
  | 0, s => s
  | _ + 1, [] => []
  | fuel + 1, c :: cs =>
    if benchChars.isPrefixOf (c :: cs) then removeBenchAux fuel (cs.drop 8)
    else c :: removeBenchAux fuel cs

/-- Python str.replace("Benchmark", "") on the characters of a string. -/
def removeBench (s : List Char) : List Char :=
  removeBenchAux s.length s

/-- Display name of one entry: line 68, e["name"].replace("Benchmark", ""). -/
def displayName (e : Entry) : String :=
  String.mk (removeBench e.name.data)

/-- Line 68: names = [e["name"].replace("Benchmark", "") for e in entries]. -/
def names (entries : List Entry) : List String :=
  entries.map (fun e => String.mk (removeBench e.name.data))

/-- Line 71: pct_changes = [e["ns_per_op_change_pct"] for e in entries]. -/
def pct_changes (entries : List Entry) : List ℚ :=
  entries.map (fun e => e.ns_per_op_change_pct)

/-- Line 77: color used for improvements. -/
def color_better : String := "#27AE60"

/-- Line 78: color used for regressions. -/
def color_worse : String := "#E74C3C"

/-- Line 79: color used inside the one-percent deadband. -/
def color_neutral : String := "#95A5A6"

/-- The three-way threshold colour function applied to one value: the
conditional expression shared by lines 124 and 224. -/
def barColor (c : ℚ) : String :=
  if c < -1 then color_better else if c > 1 then color_worse else color_neutral

/-- The comparison key of line 120: key=lambda i: pct_changes[i], as a
boolean less-or-equal test on indices. -/
def idxLe (entries : List Entry) (i j : Nat) : Bool :=
  decide ((pct_changes entries).getD i 0 ≤ (pct_changes entries).getD j 0)

/-- Line 120: sorted(range(len(pct_changes)), key=lambda i: pct_changes[i]).
Python sorted is a stable sort; it is modelled by the stable mergeSort. -/
def sorted_indices (entries : List Entry) : List Nat :=
  (List.range entries.length).mergeSort (idxLe entries)

/-- Line 121: sorted_names = [names[i] for i in sorted_indices]. -/
def sorted_names (entries : List Entry) : List String :=
  (sorted_indices entries).map (fun i => (names entries).getD i "")

/-- Line 122: sorted_changes = [pct_changes[i] for i in sorted_indices]. -/
def sorted_changes (entries : List Entry) : List ℚ :=
  (sorted_indices entries).map (fun i => (pct_changes entries).getD i 0)

/-- Lines 123-126: bar_colors, one colour per sorted change value. -/
def bar_colors (entries : List Entry) : List String :=
  (sorted_changes entries).map
    (fun c => if c < -1 then color_better else if c > 1 then color_worse else color_neutral)

/-- Lines 215-217: the dict cat_changes built by setdefault/append, as a
map from category to the list of member percent changes in entry order. -/
def catChangesMap (entries : List Entry) : String → List ℚ :=
  entries.foldl
    (fun m e => fun c => if c = e.category then m c ++ [e.ns_per_op_change_pct] else m c)
    (fun _ => [])

/-- Line 218: the dict cat_counts, as a map from category to count. -/
def catCountsMap (entries : List Entry) : String → Nat :=
  entries.foldl
    (fun m e => fun c => if c = e.category then m c + 1 else m c)
    (fun _ => 0)

/-- The keys of cat_changes in Python dict insertion order, i.e. order of
first appearance of each category. -/
def catKeys (entries : List Entry) : List String :=
  entries.foldl (fun ks e => if e.category ∈ ks then ks else ks ++ [e.category]) []

/-- The boolean lexicographic less-or-equal on strings used to model
Python sorted on the dict keys. -/
def strLe (a b : String) : Bool :=
  decide (a ≤ b)

/-- Line 220: cat_names = sorted(cat_changes.keys()). -/
def cat_names (entries : List Entry) : List String :=
  (catKeys entries).mergeSort strLe

/-- Line 221: cat_avgs = [sum(cat_changes[c]) / len(cat_changes[c]) for c in cat_names]. -/
def cat_avgs (entries : List Entry) : List ℚ :=
  (cat_names entries).map
    (fun c => (catChangesMap entries c).sum / ((catChangesMap entries c).length : ℚ))

/-- Line 222: cat_labels with the "(n=count)" suffix. -/
def cat_labels (entries : List Entry) : List String :=
  (cat_names entries).map
    (fun c => c ++ " (n=" ++ toString (catCountsMap entries c) ++ ")")

/-- Lines 223-226: cat_colors, one colour per category mean. -/
def cat_colors (entries : List Entry) : List String :=
  (cat_avgs entries).map
    (fun v => if v < -1 then color_better else if v > 1 then color_worse else color_neutral)

/-- Data of chart 1 (lines 82-110): grouped old/new ns-per-op bars in entry
order, x tick labels the display names. -/
structure GroupedBarChart where
  xLabels : List String
  oldValues : List ℚ
  newValues : List ℚ
  title : String
deriving DecidableEq

/-- Chart 1 as computed from the loaded report. -/
def comparisonChart (report : Report) : GroupedBarChart :=
  { xLabels := names report.entries
    oldValues := report.entries.map (fun e => e.old_ns_per_op)
    newValues := report.entries.map (fun e => e.new_ns_per_op)
    title := "Performance Comparison: " ++ report.old_label ++ " vs " ++ report.new_label }

/-- Data of a horizontal bar chart: row labels, bar values, bar colours. -/
structure HBarChart where
  yLabels : List String
  values : List ℚ
  colors : List String
deriving DecidableEq

/-- Chart 2 (lines 118-144): sorted percent-change bars. -/
def deltaChart (report : Report) : HBarChart :=
  { yLabels := sorted_names report.entries
    values := sorted_changes report.entries
    colors := bar_colors report.entries }

/-- Data of chart 3 (lines 146-210): two side-by-side panels, one row per
benchmark in entry order. -/
structure AllocChart where
  rowLabels : List String
  oldBytes : List ℚ
  newBytes : List ℚ
  oldAllocs : List ℚ
  newAllocs : List ℚ
deriving DecidableEq

/-- Chart 3 as computed from the loaded report: lines 147-150 read the raw
entry lists in entry order, lines 173 and 197 reuse names as row labels. -/
def allocChart (report : Report) : AllocChart :=
  { rowLabels := names report.entries
    oldBytes := report.entries.map (fun e => e.old_bytes_per_op)
    newBytes := report.entries.map (fun e => e.new_bytes_per_op)
    oldAllocs := report.entries.map (fun e => e.old_allocs_per_op)
    newAllocs := report.entries.map (fun e => e.new_allocs_per_op) }

/-- Chart 4 (lines 212-243): one bar per category. -/
def categoryChart (report : Report) : HBarChart :=
  { yLabels := cat_labels report.entries
    values := cat_avgs report.entries
    colors := cat_colors report.entries }

/-- Observable side effects of a run: console prints, the makedirs call of
line 43, and image writes by savefig. -/
inductive Event where
  | consoleOut (s : String) : Event
  | makeDirs : Event
  | savefig (filename : String) : Event
deriving DecidableEq

/-- Outcome of a run: the event trace in program order and the exit code. -/
structure RunResult where
  events : List Event
  exitCode : Nat
deriving DecidableEq

/-- Lines 33-38: the usage text printed when the argument is missing. -/
def usageEvents : List Event :=
  [Event.consoleOut "Usage: python3 hack/visualize-benchmarks.py <comparison.json>",
   Event.consoleOut "",
   Event.consoleOut "Generate the JSON first:",
   Event.consoleOut "  go run hack/benchanalyze/main.go -old results/go-1.25.5.txt -new results/go-1.26.txt -output results/"]

/-- Line 46: the install instruction printed when matplotlib is missing. -/
def installMsg : String :=
  "matplotlib is required. Install with: pip install matplotlib"

/-- Line 64: the message printed when the entries list is empty. -/
def noEntriesMsg : String :=
  "No benchmark entries found in the report."

/-- The four fixed output image filenames, in the order they are written. -/
def chartFileNames : List String :=
  ["ns_per_op_comparison.png", "pct_change.png", "allocs_comparison.png", "category_summary.png"]

/-- Events of the successful render path: each chart block writes its image
and prints a confirmation line, then the summary block prints. -/
def successEvents (report : Report) : List Event :=
  [Event.savefig "ns_per_op_comparison.png",
   Event.consoleOut "Saved: ns_per_op_comparison.png",
   Event.savefig "pct_change.png",
   Event.consoleOut "Saved: pct_change.png",
   Event.savefig "allocs_comparison.png",
   Event.consoleOut "Saved: allocs_comparison.png",
   Event.savefig "category_summary.png",
   Event.consoleOut "Saved: category_summary.png",
   Event.consoleOut "All charts saved to the charts directory",
   Event.consoleOut "Summary:",
   Event.consoleOut ("  " ++ report.new_label ++ " wins: " ++ toString report.summary.new_wins),
   Event.consoleOut ("  " ++ report.old_label ++ " wins: " ++ toString report.summary.old_wins),
   Event.consoleOut ("  Ties:       " ++ toString report.summary.ties),
   Event.consoleOut ("  Avg change: " ++ toString report.summary.avg_ns_per_op_change_pct)]

/-- Control flow of main (lines 31-251): argument check, makedirs on line 43,
matplotlib check on lines 45-47, empty-entries check on lines 63-65, then the
four chart blocks and the summary.  argc is the length of sys.argv; the
report parameter is the parsed document of the success path. -/
def runMain (argc : Nat) (mplAvailable : Bool) (report : Report) : RunResult :=
  if argc < 2 then
    { events := usageEvents, exitCode := 1 }
  else if ¬ mplAvailable then
    { events := [Event.makeDirs, Event.consoleOut installMsg], exitCode := 1 }
  else if report.entries.isEmpty then
    { events := [Event.makeDirs, Event.consoleOut noEntriesMsg], exitCode := 1 }
  else
    { events := Event.makeDirs :: successEvents report, exitCode := 0 }

/-- The image files a run writes, in order. -/
def savedFiles (r : RunResult) : List String :=
  r.events.filterMap (fun e => match e with | Event.savefig n => some n | _ => none)

/-- The events of a run that create something on disk (directory creation
and image writes). -/
def diskEvents (r : RunResult) : List Event :=
  r.events.filter (fun e => match e with
    | Event.makeDirs => true
    | Event.savefig _ => true
    | _ => false)

/-- Whether a character list contains an occurrence of the token
"Benchmark" anywhere. -/
def hasBench : List Char → Bool
  | [] => false
  | c :: cs => benchChars.isPrefixOf (c :: cs) || hasBench cs

/-- The display-name rule exactly as claim C4 words it: the token is
stripped only when the name begins with it, and the name is used as-is
otherwise.  Stated for comparison with displayName, which models the
source. -/
def displayNameSpec (e : Entry) : String :=
  if benchChars.isPrefixOf e.name.data then String.mk (e.name.data.drop benchChars.length)
  else e.name

/-- Everything one invocation computes from its input: the event trace and
exit code plus the four chart data records. -/
def fullRun (argc : Nat) (mpl : Bool) (report : Report) :
    RunResult × GroupedBarChart × HBarChart × AllocChart × HBarChart :=
  (runMain argc mpl report, comparisonChart report, deltaChart report,
   allocChart report, categoryChart report)

/-- An entry with a given name, category and percent change and zero
measurements, used for concrete witnesses. -/
def demoEntry (n c : String) (p : ℚ) : Entry :=
  { name := n, category := c, old_ns_per_op := 0, new_ns_per_op := 0,
    ns_per_op_change_pct := p, old_bytes_per_op := 0, new_bytes_per_op := 0,
    old_allocs_per_op := 0, new_allocs_per_op := 0 }

/-- Three concrete entries of one category with percent changes -10, +2, -1. -/
def demoEntries : List Entry :=
  [demoEntry "BenchmarkA" "x" (-10), demoEntry "BenchmarkB" "x" 2,
   demoEntry "BenchmarkC" "x" (-1)]

/-- A well-formed report with an empty entries list. -/
def emptyReport : Report :=
  { old_label := "go-1.25.5", new_label := "go-1.26", entries := [],
    summary := { new_wins := 0, old_wins := 0, ties := 0, avg_ns_per_op_change_pct := 0 } }

/-- A concrete report over the three demo entries. -/
def demoReport : Report :=
  { old_label := "go-1.25.5", new_label := "go-1.26", entries := demoEntries,
    summary := { new_wins := 2, old_wins := 1, ties := 0, avg_ns_per_op_change_pct := -3 } }

theorem idxLe_trans (entries : List Entry) :
    ∀ a b c, idxLe entries a b → idxLe entries b c → idxLe entries a c := by
  intro a b c hab hbc
  simp only [idxLe, decide_eq_true_eq] at *
  exact le_trans hab hbc

theorem idxLe_total (entries : List Entry) :
    ∀ a b, idxLe entries a b || idxLe entries b a := by
  intro a b
  simp only [idxLe, Bool.or_eq_true, decide_eq_true_eq]
  exact le_total _ _

theorem strLe_trans : ∀ a b c : String, strLe a b → strLe b c → strLe a c := by
  intro a b c hab hbc
  simp only [strLe, decide_eq_true_eq] at *
  exact le_trans hab hbc

theorem strLe_total : ∀ a b : String, strLe a b || strLe b a := by
  intro a b
  simp only [strLe, Bool.or_eq_true, decide_eq_true_eq]
  exact le_total _ _

/-- C1: the colour given to every percent-change bar is a pure three-way
function of the value alone, shared by the Delta Renderer and the Category
Rollup Renderer: the improved colour below -1, the regressed colour above
+1, and the neutral colour on the closed band from -1 to +1. -/
theorem c1_color_threshold :
    (∀ entries : List Entry, bar_colors entries = (sorted_changes entries).map barColor) ∧
    (∀ entries : List Entry, cat_colors entries = (cat_avgs entries).map barColor) ∧
    (∀ v : ℚ, v < -1 → barColor v = color_better) ∧
    (∀ v : ℚ, 1 < v → barColor v = color_worse) ∧
    (∀ v : ℚ, -1 ≤ v → v ≤ 1 → barColor v = color_neutral) := by
  refine ⟨fun entries => rfl, fun entries => rfl, fun v hv => ?_, fun v hv => ?_,
    fun v h1 h2 => ?_⟩
  · rw [barColor, if_pos hv]
  · rw [barColor, if_neg (by linarith), if_pos hv]
  · rw [barColor, if_neg (by linarith), if_neg (by linarith)]

/-- Claim C1 witness: the colour function evaluated on representatives of
each band, including both boundary values. -/
theorem c1_color_threshold_witness :
    barColor (-2) = color_better ∧ barColor 2 = color_worse ∧
    barColor (-1) = color_neutral ∧ barColor 1 = color_neutral :=
  ⟨c1_color_threshold.2.2.1 (-2) (by norm_num),
   c1_color_threshold.2.2.2.1 2 (by norm_num),
   c1_color_threshold.2.2.2.2 (-1) (by norm_num) (by norm_num),
   c1_color_threshold.2.2.2.2 1 (by norm_num) (by norm_num)⟩

/-- C2: the Delta Renderer draws its bars in ascending order of percent
change: every adjacent pair of drawn values satisfies the first at most the
second, independent of input order. -/
theorem c2_delta_sorted_ascending (entries : List Entry) :
    (sorted_changes entries).Chain' (· ≤ ·) := by
  apply List.Pairwise.chain'
  rw [sorted_changes, List.pairwise_map]
  have hp := List.sorted_mergeSort (idxLe_trans entries) (idxLe_total entries)
    (List.range entries.length)
  rw [sorted_indices]
  exact hp.imp (fun h => by simpa [idxLe] using h)

/-- C9: the sort of the Delta Renderer is stable: for every value v, the
indices whose percent change equals v appear in the sorted index list in
exactly their original (increasing) order. -/
theorem c9_delta_sort_stable (entries : List Entry) (v : ℚ) :
    (sorted_indices entries).filter
        (fun i => decide ((pct_changes entries).getD i 0 = v)) =
      (List.range entries.length).filter
        (fun i => decide ((pct_changes entries).getD i 0 = v)) := by
  have hmem : ∀ i ∈ (List.range entries.length).filter
      (fun i => decide ((pct_changes entries).getD i 0 = v)),
      (pct_changes entries).getD i 0 = v := by
    intro i hi
    simpa using List.of_mem_filter hi
  have hpw : ((List.range entries.length).filter
      (fun i => decide ((pct_changes entries).getD i 0 = v))).Pairwise
      (fun i j => idxLe entries i j = true) := by
    apply List.pairwise_of_forall_mem_list
    intro a ha b hb
    simp only [idxLe, decide_eq_true_eq]
    rw [hmem a ha, hmem b hb]
  have hsub : List.Sublist
      ((List.range entries.length).filter
        (fun i => decide ((pct_changes entries).getD i 0 = v)))
      (sorted_indices entries) := by
    rw [sorted_indices]
    exact List.sublist_mergeSort (idxLe_trans entries) (idxLe_total entries)
      hpw (List.filter_sublist _)
  have hsub2 : List.Sublist
      ((List.range entries.length).filter
        (fun i => decide ((pct_changes entries).getD i 0 = v)))
      ((sorted_indices entries).filter
        (fun i => decide ((pct_changes entries).getD i 0 = v))) := by
    have h2 := hsub.filter (fun i => decide ((pct_changes entries).getD i 0 = v))
    rw [List.filter_filter] at h2
    simpa using h2
  have hperm : List.Perm
      ((sorted_indices entries).filter
        (fun i => decide ((pct_changes entries).getD i 0 = v)))
      ((List.range entries.length).filter
        (fun i => decide ((pct_changes entries).getD i 0 = v))) := by
    rw [sorted_indices]
    exact (List.mergeSort_perm _ _).filter _
  exact ((hsub2.eq_of_length hperm.length_eq.symm).symm)

theorem catChangesMap_go (c : String) :
    ∀ (l : List Entry) (m : String → List ℚ),
      (l.foldl
        (fun m e => fun c2 => if c2 = e.category then m c2 ++ [e.ns_per_op_change_pct] else m c2)
        m) c =
        m c ++ (l.filter (fun e => e.category = c)).map (fun e => e.ns_per_op_change_pct)
  | [], m => by simp
  | e :: l, m => by
    rw [List.foldl_cons, catChangesMap_go c l, List.filter_cons]
    by_cases h : e.category = c
    · rw [if_pos h.symm, if_pos (by simp [h]), List.map_cons, List.append_assoc,
        List.singleton_append]
    · rw [if_neg (fun h2 => h h2.symm), if_neg (by simp [h])]

theorem catChangesMap_eq (entries : List Entry) (c : String) :
    catChangesMap entries c =
      (entries.filter (fun e => e.category = c)).map (fun e => e.ns_per_op_change_pct) := by
  rw [catChangesMap, catChangesMap_go c entries]
  simp

theorem catCountsMap_go (c : String) :
    ∀ (l : List Entry) (m : String → Nat),
      (l.foldl (fun m e => fun c2 => if c2 = e.category then m c2 + 1 else m c2) m) c =
        m c + (l.filter (fun e => e.category = c)).length
  | [], m => by simp
  | e :: l, m => by
    rw [List.foldl_cons, catCountsMap_go c l, List.filter_cons]
    by_cases h : e.category = c
    · rw [if_pos h.symm, if_pos (by simp [h]), List.length_cons]
      omega
    · rw [if_neg (fun h2 => h h2.symm), if_neg (by simp [h])]

theorem catCountsMap_eq (entries : List Entry) (c : String) :
    catCountsMap entries c = (entries.filter (fun e => e.category = c)).length := by
  rw [catCountsMap, catCountsMap_go c entries]
  simp

theorem catKeys_go_mem (c : String) :
    ∀ (l : List Entry) (ks : List String),
      (c ∈ l.foldl (fun ks e => if e.category ∈ ks then ks else ks ++ [e.category]) ks ↔
        c ∈ ks ∨ ∃ e ∈ l, e.category = c)
  | [], ks => by simp
  | e :: l, ks => by
    rw [List.foldl_cons, catKeys_go_mem c l]
    by_cases h : e.category ∈ ks
    · simp only [if_pos h]
      constructor
      · rintro (hk | he)
        · exact Or.inl hk
        · exact Or.inr ⟨_, List.mem_cons_of_mem _ he.choose_spec.1, he.choose_spec.2⟩
      · rintro (hk | ⟨e2, he2, hc2⟩)
        · exact Or.inl hk
        · rcases List.mem_cons.mp he2 with rfl | he3
          · exact Or.inl (hc2 ▸ h)
          · exact Or.inr ⟨e2, he3, hc2⟩
    · simp only [if_neg h, List.mem_append, List.mem_singleton]
      constructor
      · rintro ((hk | hc2) | he)
        · exact Or.inl hk
        · exact Or.inr ⟨e, List.mem_cons_self e l, hc2.symm⟩
        · exact Or.inr ⟨_, List.mem_cons_of_mem _ he.choose_spec.1, he.choose_spec.2⟩
      · rintro (hk | ⟨e2, he2, hc2⟩)
        · exact Or.inl (Or.inl hk)
        · rcases List.mem_cons.mp he2 with rfl | he3
          · exact Or.inl (Or.inr hc2.symm)
          · exact Or.inr ⟨e2, he3, hc2⟩

theorem catKeys_go_nodup :
    ∀ (l : List Entry) (ks : List String), ks.Nodup →
      (l.foldl (fun ks e => if e.category ∈ ks then ks else ks ++ [e.category]) ks).Nodup
  | [], ks, h => by simpa using h
  | e :: l, ks, h => by
    rw [List.foldl_cons]
    by_cases hm : e.category ∈ ks
    · rw [if_pos hm]
      exact catKeys_go_nodup l ks h
    · rw [if_neg hm]
      apply catKeys_go_nodup l
      simp [List.nodup_append, h, hm]

theorem mem_catKeys (entries : List Entry) (c : String) :
    c ∈ catKeys entries ↔ ∃ e ∈ entries, e.category = c := by
  rw [catKeys, catKeys_go_mem c entries]
  simp

theorem mem_cat_names (entries : List Entry) (c : String) :
    c ∈ cat_names entries ↔ ∃ e ∈ entries, e.category = c := by
  rw [cat_names, List.mem_mergeSort, mem_catKeys]

theorem cat_names_nodup (entries : List Entry) : (cat_names entries).Nodup := by
  rw [cat_names]
  exact (List.mergeSort_perm (catKeys entries) strLe).nodup_iff.mpr
    (catKeys_go_nodup entries [] List.nodup_nil)

theorem cat_names_sorted (entries : List Entry) :
    (cat_names entries).Pairwise (· ≤ ·) := by
  have hp := List.sorted_mergeSort strLe_trans strLe_total (catKeys entries)
  rw [cat_names]
  exact hp.imp (fun h => by simpa [strLe] using h)

/-- C3: the Category Rollup Renderer produces one row per distinct category
in strictly increasing lexicographic order of name, each row holding the
arithmetic mean of the member percent changes and the label
"category (n=count)" with count the number of member entries. -/
theorem c3_category_rollup (entries : List Entry) (_hne : entries ≠ []) :
    (cat_names entries).Pairwise (· < ·) ∧
    (∀ c, c ∈ cat_names entries ↔ ∃ e ∈ entries, e.category = c) ∧
    cat_avgs entries = (cat_names entries).map
      (fun c => ((entries.filter (fun e => e.category = c)).map
          (fun e => e.ns_per_op_change_pct)).sum /
        ((entries.filter (fun e => e.category = c)).length : ℚ)) ∧
    cat_labels entries = (cat_names entries).map
      (fun c => c ++ " (n=" ++
        toString ((entries.filter (fun e => e.category = c)).length) ++ ")") := by
  refine ⟨?_, fun c => mem_cat_names entries c, ?_, ?_⟩
  · have h1 := cat_names_sorted entries
    have h2 := cat_names_nodup entries
    exact (h1.and h2).imp (fun h => lt_of_le_of_ne h.1 h.2)
  · rw [cat_avgs]
    apply List.map_congr_left
    intro c _
    rw [catChangesMap_eq, List.length_map]
  · rw [cat_labels]
    apply List.map_congr_left
    intro c _
    rw [catCountsMap_eq]

theorem cat_names_demoEntries : cat_names demoEntries = ["x"] := by
  rw [cat_names, show catKeys demoEntries = ["x"] by decide, List.mergeSort_singleton]

/-- Claim C3 witness: on three entries of one category with percent changes
-10, +2 and -1 the rollup yields the single mean -3 with label "x (n=3)". -/
theorem c3_category_rollup_witness :
    cat_avgs demoEntries = [-3] ∧ cat_labels demoEntries = ["x (n=3)"] ∧
    (("x" ∈ cat_names demoEntries) ↔ ∃ e ∈ demoEntries, e.category = "x") := by
  refine ⟨?_, ?_, (c3_category_rollup demoEntries (by simp [demoEntries])).2.1 "x"⟩
  · rw [cat_avgs, cat_names_demoEntries, List.map_cons, List.map_nil,
      show catChangesMap demoEntries "x" = [-10, 2, -1] by decide]
    norm_num
  · rw [cat_labels, cat_names_demoEntries, List.map_cons, List.map_nil,
      show catCountsMap demoEntries "x" = 3 by decide]
    rfl

/-- C10: every category key of the rollup groups a non-empty member list,
so its mean divides by a positive count, and the count printed in the row
label equals the number of values averaged. -/
theorem c10_category_groups (entries : List Entry) (c : String)
    (hc : c ∈ cat_names entries) :
    0 < (catChangesMap entries c).length ∧
    catCountsMap entries c = (catChangesMap entries c).length := by
  obtain ⟨e, he, hcat⟩ := (mem_cat_names entries c).mp hc
  constructor
  · rw [catChangesMap_eq, List.length_map]
    have hm : e ∈ entries.filter (fun e2 => e2.category = c) :=
      List.mem_filter.mpr ⟨he, by simp [hcat]⟩
    exact List.length_pos.mpr (List.ne_nil_of_mem hm)
  · rw [catCountsMap_eq, catChangesMap_eq, List.length_map]

/-- Claim C10 witness: the category of the demo entries has three members,
and the separately built count map agrees with that length. -/
theorem c10_category_groups_witness :
    0 < (catChangesMap demoEntries "x").length ∧
    catCountsMap demoEntries "x" = (catChangesMap demoEntries "x").length :=
  c10_category_groups demoEntries "x" (by rw [cat_names_demoEntries]; simp)

theorem removeBenchAux_congr :
    ∀ (f1 f2 : Nat) (s : List Char), s.length ≤ f1 → s.length ≤ f2 →
      removeBenchAux f1 s = removeBenchAux f2 s
  | 0, f2, s, h1, _ => by
    have hs : s = [] := List.length_eq_zero.mp (Nat.le_zero.mp h1)
    cases f2 <;> simp [hs, removeBenchAux]
  | _ + 1, 0, s, _, h2 => by
    have hs : s = [] := List.length_eq_zero.mp (Nat.le_zero.mp h2)
    simp [hs, removeBenchAux]
  | _ + 1, _ + 1, [], _, _ => rfl
  | f1 + 1, f2 + 1, c :: cs, h1, h2 => by
    rw [removeBenchAux, removeBenchAux]
    by_cases hp : benchChars.isPrefixOf (c :: cs)
    · rw [if_pos hp, if_pos hp]
      apply removeBenchAux_congr
      · simp only [List.length_drop]
        simp only [List.length_cons] at h1
        omega
      · simp only [List.length_drop]
        simp only [List.length_cons] at h2
        omega
    · rw [if_neg hp, if_neg hp,
        removeBenchAux_congr f1 f2 cs
          (by simp only [List.length_cons] at h1; omega)
          (by simp only [List.length_cons] at h2; omega)]

theorem removeBenchAux_eq_self :
    ∀ (f : Nat) (s : List Char), hasBench s = false → removeBenchAux f s = s
  | 0, _, _ => rfl
  | _ + 1, [], _ => rfl
  | f + 1, c :: cs, h => by
    rw [hasBench, Bool.or_eq_false_iff] at h
    rw [removeBenchAux, if_neg (by simp [h.1]), removeBenchAux_eq_self f cs h.2]

theorem removeBench_eq_self {s : List Char} (h : hasBench s = false) :
    removeBench s = s :=
  removeBenchAux_eq_self s.length s h

theorem removeBench_append_bench (rest : List Char) :
    removeBench (benchChars ++ rest) = removeBench rest := by
  rw [removeBench, removeBench]
  have hlen : (benchChars ++ rest).length = rest.length + 9 := by
    simp [benchChars]
  rw [hlen,
    show benchChars ++ rest =
      'B' :: ('e' :: 'n' :: 'c' :: 'h' :: 'm' :: 'a' :: 'r' :: 'k' :: rest) from rfl,
    removeBenchAux, if_pos (by simp [benchChars, List.isPrefixOf])]
  exact removeBenchAux_congr (rest.length + 8) rest.length rest (by omega) le_rfl

/-- Claim C4 counterexample: for the entry named "FooBenchmark", which does
not begin with the token, the source computes "Foo" while the claim requires
the name to be left unchanged. -/
theorem c4_counterexample :
    displayName (demoEntry "FooBenchmark" "x" 0) = "Foo" ∧
    displayNameSpec (demoEntry "FooBenchmark" "x" 0) = "FooBenchmark" ∧
    displayName (demoEntry "FooBenchmark" "x" 0) ≠
      displayNameSpec (demoEntry "FooBenchmark" "x" 0) := by
  decide

/-- C4 amended: the display name is the entry name with every leftmost
non-overlapping occurrence of the token "Benchmark" removed: a name
containing no occurrence is left unchanged, and a name beginning with the
token has it stripped with the remainder processed the same way. -/
theorem c4_display_name (e : Entry) :
    (hasBench e.name.data = false → displayName e = e.name) ∧
    (∀ rest : List Char, e.name.data = benchChars ++ rest →
      (displayName e).data = removeBench rest) := by
  constructor
  · intro h
    rw [displayName, removeBench_eq_self h]
  · intro rest h
    rw [displayName, h, removeBench_append_bench]

/-- Claim C4 witness: a name with no occurrence of the token is unchanged,
and "BenchmarkFooBar" has the leading token stripped, displaying "FooBar". -/
theorem c4_display_name_witness :
    displayName (demoEntry "FastPath" "x" 0) = "FastPath" ∧
    (displayName (demoEntry "BenchmarkFooBar" "x" 0)).data = removeBench "FooBar".data ∧
    displayName (demoEntry "BenchmarkFooBar" "x" 0) = "FooBar" :=
  ⟨(c4_display_name (demoEntry "FastPath" "x" 0)).1 (by decide),
   (c4_display_name (demoEntry "BenchmarkFooBar" "x" 0)).2 "FooBar".data (by decide),
   by decide⟩

/-- C5: a well-formed report with an empty entries list makes the run print
the no-entries message and exit non-zero, with no chart image written. -/
theorem c5_empty_entries (argc : Nat) (mpl : Bool) (report : Report)
    (hargc : 2 ≤ argc) (hmpl : mpl = true) (hempty : report.entries = []) :
    (runMain argc mpl report).exitCode = 1 ∧
    Event.consoleOut noEntriesMsg ∈ (runMain argc mpl report).events ∧
    savedFiles (runMain argc mpl report) = [] := by
  subst hmpl
  have h1 : ¬ argc < 2 := by omega
  have hrun : runMain argc true report =
      { events := [Event.makeDirs, Event.consoleOut noEntriesMsg], exitCode := 1 } := by
    rw [runMain, if_neg h1, if_neg (by simp), if_pos (by simp [hempty])]
  rw [hrun]
  refine ⟨rfl, by simp, rfl⟩

/-- Claim C5 witness: the run on the concrete empty report. -/
theorem c5_empty_entries_witness :
    (runMain 2 true emptyReport).exitCode = 1 ∧
    Event.consoleOut noEntriesMsg ∈ (runMain 2 true emptyReport).events ∧
    savedFiles (runMain 2 true emptyReport) = [] :=
  c5_empty_entries 2 true emptyReport (by norm_num) rfl rfl

/-- Claim C6 counterexample: with matplotlib unavailable the run does print
the install instruction and exit non-zero, but its trace makes the
directory-creation call before that exit, so with a fresh output location
something is created on disk, refuting the no-files-touched part. -/
theorem c6_counterexample :
    (runMain 2 false emptyReport).exitCode = 1 ∧
    (runMain 2 false emptyReport).events =
      [Event.makeDirs, Event.consoleOut installMsg] ∧
    diskEvents (runMain 2 false emptyReport) ≠ [] := by
  refine ⟨rfl, rfl, ?_⟩
  intro h
  simp [runMain, diskEvents, emptyReport] at h

/-- C6 amended: if matplotlib is unavailable the run prints the install
instruction and exits non-zero with no chart image written, but the charts
output directory is created (when absent) before the capability check. -/
theorem c6_missing_matplotlib (argc : Nat) (report : Report) (hargc : 2 ≤ argc) :
    (runMain argc false report).exitCode = 1 ∧
    (runMain argc false report).events =
      [Event.makeDirs, Event.consoleOut installMsg] ∧
    savedFiles (runMain argc false report) = [] := by
  have h1 : ¬ argc < 2 := by omega
  have hrun : runMain argc false report =
      { events := [Event.makeDirs, Event.consoleOut installMsg], exitCode := 1 } := by
    rw [runMain, if_neg h1, if_pos (by simp)]
  rw [hrun]
  exact ⟨rfl, rfl, rfl⟩

/-- Claim C6 witness: the run with matplotlib unavailable on the concrete
report. -/
theorem c6_missing_matplotlib_witness :
    (runMain 2 false demoReport).exitCode = 1 ∧
    (runMain 2 false demoReport).events =
      [Event.makeDirs, Event.consoleOut installMsg] ∧
    savedFiles (runMain 2 false demoReport) = [] :=
  c6_missing_matplotlib 2 demoReport (by norm_num)

/-- C7: the loaded report is never mutated, so the Comparison Bar Renderer
and the Allocation Renderer lay out exactly one row per entry in the
original input order, even though the Delta Renderer displays its own
sorted order. -/
theorem c7_input_order (report : Report) (dummy : Entry) (i : Nat)
    (hi : i < report.entries.length) :
    (allocChart report).rowLabels = report.entries.map displayName ∧
    (comparisonChart report).xLabels = report.entries.map displayName ∧
    (allocChart report).oldBytes = report.entries.map (fun e => e.old_bytes_per_op) ∧
    (allocChart report).newBytes = report.entries.map (fun e => e.new_bytes_per_op) ∧
    (allocChart report).oldAllocs = report.entries.map (fun e => e.old_allocs_per_op) ∧
    (allocChart report).newAllocs = report.entries.map (fun e => e.new_allocs_per_op) ∧
    (allocChart report).rowLabels.getD i "" = displayName (report.entries.getD i dummy) := by
  refine ⟨rfl, rfl, rfl, rfl, rfl, rfl, ?_⟩
  have hl : i < (report.entries.map displayName).length := by simpa using hi
  have h1 : (allocChart report).rowLabels = report.entries.map displayName := rfl
  rw [h1, List.getD_eq_getElem _ _ hl, List.getElem_map,
    List.getD_eq_getElem _ _ hi]

/-- Claim C7 witness: row 0 of the allocation chart of the demo report is
the display name of entry 0. -/
theorem c7_input_order_witness :
    (allocChart demoReport).rowLabels.getD 0 "" =
      displayName (demoReport.entries.getD 0 (demoEntry "d" "d" 0)) :=
  (c7_input_order demoReport (demoEntry "d" "d" 0) 0
    (by simp [demoReport, demoEntries])).2.2.2.2.2.2

/-- C8: the report-to-chart transformation is deterministic: two runs on
equal inputs produce equal event traces and equal chart data, and a
successful run writes exactly the same four fixed filenames. -/
theorem c8_deterministic (argc : Nat) (mpl : Bool) (r1 r2 : Report) (h : r1 = r2) :
    fullRun argc mpl r1 = fullRun argc mpl r2 ∧
    (2 ≤ argc → mpl = true → r1.entries ≠ [] →
      savedFiles (runMain argc mpl r1) = chartFileNames) := by
  subst h
  refine ⟨rfl, fun h1 h2 h3 => ?_⟩
  subst h2
  have hlt : ¬ argc < 2 := by omega
  have hne : ¬ r1.entries.isEmpty = true := by simp [h3]
  rw [runMain, if_neg hlt, if_neg (by simp), if_neg (by simpa using hne)]
  rfl

/-- Claim C8 witness: two runs on the identical demo report coincide and
write the four fixed filenames. -/
theorem c8_deterministic_witness :
    fullRun 2 true demoReport = fullRun 2 true demoReport ∧
    savedFiles (runMain 2 true demoReport) = chartFileNames :=
  ⟨(c8_deterministic 2 true demoReport demoReport rfl).1,
   (c8_deterministic 2 true demoReport demoReport rfl).2 (by norm_num) rfl
     (by simp [demoReport, demoEntries])⟩

end VisualizeBenchmarks
